import Mathlib

/-!
Verification of the solana-trading-bot copy-trading core against its
natural-language specification.

The development shallowly embeds the decision logic of the repository:

* `src/swap-service.ts` — the `SwapService.executeSwap` retry loop with its
  buy/sell circuit breaker, the per-attempt slippage schedule, the fixed buy
  amount, the `parseTx` versioned/legacy transaction decoder, and the
  `processPendingSells` pass over the durable pending-sell queue;
* `src/unnamed/part_007` — the `executeSwap` variant that performs the
  proportional resize of a copied sell (the variant defining
  `MIN_SELL_PERCENTAGE`);
* `src/unnamed/part_008` — the poll-mode `TokenTracker` (holdings store,
  `checkBalances` full-sell dispatch, `handleFullSell`, `addHolding`).

JavaScript numbers are modelled as exact rationals (`ℚ`) and `Math.floor` as
`Int.floor`.  Network effects are abstracted into explicit oracle parameters
(per-attempt outcome, emergency-sell success, transaction verification) so
that the control flow around them is embedded exactly.
-/

set_option linter.unusedVariables false

namespace SolanaTradingBot

/-- Mint address of native SOL, `'So11111111111111111111111111111111111111112'`
in the source; `tokenInMint === SOL` marks a buy, `tokenOutMint === SOL` a
sell (src/swap-service.ts lines 106-107). -/
def solMint : String := "So11111111111111111111111111111111111111112"

/-- Constant from src/swap-service.ts line 19. -/
def MAX_RETRIES : ℕ := 3

/-- Constant from src/swap-service.ts line 22 (`3000` bps). -/
def BASE_SLIPPAGE_BPS : ℕ := 3000

/-- Constant from src/swap-service.ts line 23 (`4900` bps). -/
def MAX_SLIPPAGE_BPS : ℕ := 4900

/-- Constant from src/swap-service.ts line 24 (`500` bps per retry). -/
def SLIPPAGE_INCREMENT : ℕ := 500

/-- Constant from src/swap-service.ts line 49 (`this.MAX_TOTAL_ATTEMPTS`). -/
def MAX_TOTAL_ATTEMPTS : ℕ := 10

/-- Constant from src/swap-service.ts line 50 (`this.RETRY_INTERVALS`),
in milliseconds. -/
def RETRY_INTERVALS : List ℤ := [1000, 2000, 5000, 10000, 30000]

/-- Constant from src/unnamed/part_007 line 99: `MIN_SELL_PERCENTAGE = 1`
(do not copy a sell of less than 1%). -/
def MIN_SELL_PERCENTAGE : ℚ := 1

/-- Constant from src/unnamed/part_007 line 100: `MAX_SELL_PERCENTAGE = 100`. -/
def MAX_SELL_PERCENTAGE : ℚ := 100

/-- Dynamic slippage for one attempt, src/swap-service.ts lines 224-226:
`isSellingTransaction ? Math.min(BASE_SLIPPAGE_BPS + retryCount *
SLIPPAGE_INCREMENT, MAX_SLIPPAGE_BPS) : BASE_SLIPPAGE_BPS`.  Inside the retry
loop, the attempt with retry counter `k` computes exactly
`currentSlippage isSellingTransaction k`. -/
def currentSlippage (isSellingTransaction : Bool) (retryCount : ℕ) : ℕ :=
  if isSellingTransaction then
    min (BASE_SLIPPAGE_BPS + retryCount * SLIPPAGE_INCREMENT) MAX_SLIPPAGE_BPS
  else
    BASE_SLIPPAGE_BPS

/-- Amount override of src/swap-service.ts lines 211-216 (and
src/unnamed/part_007 lines 1046-1049): when the input mint is native SOL the
amount is forced to the fixed `minimumSolAmount = 0.001` SOL, discarding the
caller-supplied `amountIn`. -/
def attemptAmountIn (tokenInMint : String) (amountIn : ℚ) : ℚ :=
  if tokenInMint == solMint then 1 / 1000 else amountIn

/-- Lamport conversion of src/swap-service.ts line 219:
`Math.floor(amountIn * 1e9)` applied to the possibly overridden amount. -/
def amountInLamports (tokenInMint : String) (amountIn : ℚ) : ℤ :=
  Int.floor (attemptAmountIn tokenInMint amountIn * 1000000000)

/-- Constant from src/swap-service.ts line 25 (`100` percent). -/
def MAX_ACCEPTABLE_PRICE_IMPACT : ℚ := 100

/-- Price-impact ceiling check of src/swap-service.ts line 238: an attempt
whose quote reports `priceImpactPct` above `MAX_ACCEPTABLE_PRICE_IMPACT`
throws `ExtremePriceImpactError` (line 241); in the loop model such an
attempt has outcome `AttemptOutcome.failPriceImpact`. -/
def extremePriceImpact (priceImpactPct : ℚ) : Bool :=
  decide (MAX_ACCEPTABLE_PRICE_IMPACT < priceImpactPct)

/-- Proportional resize of a copied sell, src/unnamed/part_007 lines 97-192.
Arguments are the counterparty balance (`targetCurrentBalance`), the follower
balance (`ourCurrentBalance`) and the counterparty sell amount
(`targetSellAmount = amountIn`).  Returns `none` where the source returns
`null` (guards and the below-minimum skip), otherwise the recomputed
`amountIn = Math.floor(ourCurrentBalance * targetSellPercentage / 100)`.
The network round-trip that merely checks the quoted value (lines 163-175)
does not alter the computed amount and is elided. -/
def computeSellAmount (targetCurrentBalance ourCurrentBalance targetSellAmount : ℚ) :
    Option ℤ :=
  if targetCurrentBalance ≤ 0 then none
  else if ourCurrentBalance ≤ 0 then none
  else if targetCurrentBalance < targetSellAmount then none
  else
    let targetSellPercentage := targetSellAmount / targetCurrentBalance * 100
    if targetSellPercentage < MIN_SELL_PERCENTAGE then none
    else
      let cappedPercentage :=
        if MAX_SELL_PERCENTAGE < targetSellPercentage then MAX_SELL_PERCENTAGE
        else targetSellPercentage
      some (Int.floor (ourCurrentBalance * cappedPercentage / 100))

/-- Outcome of one iteration of the retry loop of
`SwapService.executeSwap` (src/swap-service.ts lines 117-506).  The network
round-trips of an attempt are abstracted into this oracle value:
`success sig` — the attempt confirms and returns signature `sig`;
`guardNull` — an in-loop guard returned `null` (missing token account, zero
balance, resize skip);
`failSlippage` — the attempt threw an error matching the slippage pattern of
lines 478-479 (`message` includes `'slippage'` or `'Custom:40'`);
`failPriceImpact` — the quote's `priceImpactPct` exceeded
`MAX_ACCEPTABLE_PRICE_IMPACT`, so the attempt threw `ExtremePriceImpactError`
(line 241), which the outer `catch` at line 450 receives like any other
non-slippage error;
`failOther` — any other thrown error. -/
inductive AttemptOutcome where
  | success (sig : ℕ)
  | guardNull
  | failSlippage
  | failPriceImpact
  | failOther
deriving DecidableEq, Repr

/-- True for the outcomes that reach the `catch` block at
src/swap-service.ts line 450 (a thrown error), false for a normal return. -/
def isFailure : AttemptOutcome → Bool
  | .success _ => false
  | .guardNull => false
  | _ => true

/-- True exactly for the slippage-pattern failure of src/swap-service.ts
lines 478-479. -/
def isSlippageFailure : AttemptOutcome → Bool
  | .failSlippage => true
  | _ => false

/-- Observable result of one `executeSwap` call: the returned value
(`some sig` for a signature, `none` for `null`), the number of loop
iterations that executed the attempt body, and the number of
`triggerEmergencySell` calls scheduled. -/
structure ExecResult where
  returned : Option ℕ
  attempts : ℕ
  emergencySells : ℕ
deriving DecidableEq, Repr

/-- One step of the `while (retryCount <= MAX_RETRIES)` loop of
src/swap-service.ts lines 117-506, with `out k` the outcome of the attempt
executed while `retryCount = k`.  On a thrown error the `catch` block
(lines 450-505) increments `retryCount`; a slippage-pattern error always
`continue`s (line 483); any other error `continue`s after a delay while
`retryCount <= MAX_RETRIES` (line 491) and otherwise schedules
`triggerEmergencySell` when the swap is a sell (lines 497-502) and returns
`null`.  Falling out of the loop returns `null` (line 508).  `fuel` bounds
the recursion; `executeSwap` supplies enough fuel that it never runs out. -/
def execLoop (out : ℕ → AttemptOutcome) (isSellTransaction : Bool) :
    ℕ → ℕ → ExecResult
  | 0, _ => ⟨none, 0, 0⟩
  | fuel + 1, retryCount =>
    if MAX_RETRIES < retryCount then ⟨none, 0, 0⟩
    else
      match out retryCount with
      | .success sig => ⟨some sig, 1, 0⟩
      | .guardNull => ⟨none, 1, 0⟩
      | .failSlippage =>
        let res := execLoop out isSellTransaction fuel (retryCount + 1)
        ⟨res.returned, res.attempts + 1, res.emergencySells⟩
      | .failPriceImpact =>
        if retryCount + 1 ≤ MAX_RETRIES then
          let res := execLoop out isSellTransaction fuel (retryCount + 1)
          ⟨res.returned, res.attempts + 1, res.emergencySells⟩
        else ⟨none, 1, if isSellTransaction then 1 else 0⟩
      | .failOther =>
        if retryCount + 1 ≤ MAX_RETRIES then
          let res := execLoop out isSellTransaction fuel (retryCount + 1)
          ⟨res.returned, res.attempts + 1, res.emergencySells⟩
        else ⟨none, 1, if isSellTransaction then 1 else 0⟩

/-- Control skeleton of `SwapService.executeSwap`
(src/swap-service.ts lines 98-509).  The circuit breaker at lines 105-112
runs before any network call or loop iteration: a disabled buy
(`tokenInMint` is SOL and `ENABLE_BUY` false) or disabled sell
(`tokenOutMint` is SOL and `ENABLE_SELL` false) returns `null` at once with
zero attempts.  Otherwise the retry loop runs; `amountIn`,
`targetWalletAddress` and `isSellingTransaction` only influence behaviour
inside the attempt body, which the `out` oracle abstracts. -/
def executeSwap (enableBuy enableSell : Bool) (tokenInMint tokenOutMint : String)
    (amountIn : ℚ) (targetWalletAddress : Option String)
    (isSellingTransaction : Bool) (out : ℕ → AttemptOutcome) : ExecResult :=
  let isBuyTransaction := tokenInMint == solMint
  let isSellTransaction := tokenOutMint == solMint
  if (isBuyTransaction && !enableBuy) || (isSellTransaction && !enableSell) then
    ⟨none, 0, 0⟩
  else
    execLoop out isSellTransaction (MAX_RETRIES + 2) 0

/-- Result of decoding one transaction payload: either a versioned
transaction or a legacy transaction. -/
inductive ParsedTx (V L : Type) where
  | versionedTx (v : V)
  | legacyTx (t : L)
deriving DecidableEq, Repr

/-- Decoder of src/swap-service.ts lines 320-327: try
`VersionedTransaction.deserialize(buf)` first and, exactly when that throws,
fall back to `Transaction.from(buf)`.  `deserializeVersioned` abstracts the
versioned decoder as a total function returning `none` where the original
throws; `legacyFrom` abstracts `Transaction.from`. -/
def parseTx {B V L : Type} (deserializeVersioned : B → Option V)
    (legacyFrom : B → L) (buf : B) : ParsedTx V L :=
  match deserializeVersioned buf with
  | some v => ParsedTx.versionedTx v
  | none => ParsedTx.legacyTx (legacyFrom buf)

/-- Holding record of the poll-mode tracker, src/unnamed/part_008 lines
404-409 (`TokenHolding`): mints are opaque identifiers, modelled as `ℕ`. -/
structure TokenHolding where
  mint : ℕ
  amount : ℚ
  targetAmount : ℚ
  lastChecked : ℤ
deriving DecidableEq, Repr

/-- Full-sell handler of src/unnamed/part_008 lines 583-616
(`TokenTracker.handleFullSell`): if the follower's own on-chain balance is
not positive, the holding is removed at once and no sell happens; otherwise
`executeSwap` is called with the holding's stored `amount` (the emitted sell
size, returned as the second component) and the holding is removed exactly
when the call returns a signature that `verifyTransactionSuccess` accepts.
`execSell` abstracts `executeSwap(mint, SOL, amount, targetWallet, true)`:
it receives the sell size and yields the returned signature or `none`. -/
def handleFullSell (ourBalance : ℚ) (execSell : ℚ → Option ℕ)
    (verifySuccess : ℕ → Bool) (holdings : List TokenHolding)
    (holding : TokenHolding) : List TokenHolding × Option ℚ :=
  if ourBalance ≤ 0 then
    (holdings.filter (fun h => h.mint != holding.mint), none)
  else
    match execSell holding.amount with
    | some txId =>
      if verifySuccess txId then
        (holdings.filter (fun h => h.mint != holding.mint), some holding.amount)
      else (holdings, some holding.amount)
    | none => (holdings, some holding.amount)

/-- One holding's step of `TokenTracker.checkBalances`, src/unnamed/part_008
lines 534-580, given the counterparty balance (`targetBalance`) fetched for
this mint.  A decrease dispatches either to `handleFullSell` (counterparty
balance exactly 0 from a positive `targetAmount`; `continue` skips the
`targetAmount` update) or to the partial-sell branch, which emits a sell of
`holding.amount * sellPercentage / 100` (its `executeSwap` result is not
inspected), shrinks `holding.amount` and records `targetAmount :=
targetBalance`.  No decrease only records `targetAmount` and `lastChecked`.
The second component is the emitted sell size, `none` when no sell is
emitted. -/
def checkBalanceStep (targetBalance ourBalance : ℚ) (execSell : ℚ → Option ℕ)
    (verifySuccess : ℕ → Bool) (now : ℤ) (holdings : List TokenHolding)
    (holding : TokenHolding) : List TokenHolding × Option ℚ :=
  if targetBalance < holding.targetAmount then
    if targetBalance = 0 ∧ 0 < holding.targetAmount then
      handleFullSell ourBalance execSell verifySuccess holdings holding
    else
      let sellPercentage := (holding.targetAmount - targetBalance) / holding.targetAmount * 100
      let emittedAmount := holding.amount * (sellPercentage / 100)
      let newAmount := max 0 (holding.amount - holding.amount * (sellPercentage / 100))
      (holdings.map (fun h =>
        if h.mint = holding.mint then
          { h with amount := newAmount, targetAmount := targetBalance, lastChecked := now }
        else h),
       some emittedAmount)
  else
    (holdings.map (fun h =>
      if h.mint = holding.mint then
        { h with targetAmount := targetBalance, lastChecked := now }
      else h),
     none)

/-- In-memory holdings list together with the last state written to the
`holdings.json` file by `saveHoldings` (src/unnamed/part_008 lines 442-444). -/
structure HoldingsStore where
  holdings : List TokenHolding
  persisted : List TokenHolding
deriving DecidableEq, Repr

/-- The `TokenTracker.addHolding` of src/unnamed/part_008 lines 446-462:
decimal-adjust the raw base-unit amount by the mint's `decimals` (looked up
on chain, passed here as a parameter), append the new holding with
`targetAmount = 0`, and persist the whole list immediately via
`saveHoldings`. -/
def addHolding (decimals : ℕ) (now : ℤ) (store : HoldingsStore) (mint : ℕ)
    (amount : ℚ) : HoldingsStore :=
  let adjustedAmount := amount / (10 : ℚ) ^ decimals
  let holdings := store.holdings ++ [⟨mint, adjustedAmount, 0, now⟩]
  ⟨holdings, holdings⟩

/-- Entry of the durable pending-sell queue, src/swap-service.ts lines
27-33 (`interface PendingSell`); mints and wallets are opaque identifiers,
modelled as `ℕ`. -/
structure PendingSell where
  mint : ℕ
  amount : ℚ
  attempts : ℕ
  lastAttempt : ℤ
  targetWallet : ℕ
deriving DecidableEq, Repr

/-- Backoff interval lookup of src/swap-service.ts line 674:
`RETRY_INTERVALS[Math.min(sell.attempts, RETRY_INTERVALS.length - 1)]`. -/
def retryInterval (attempts : ℕ) : ℤ :=
  RETRY_INTERVALS.getD (min attempts (RETRY_INTERVALS.length - 1)) 0

/-- Due check of src/swap-service.ts line 674:
`Date.now() - sell.lastAttempt > RETRY_INTERVALS[...]`. -/
def sellDue (now : ℤ) (sell : PendingSell) : Bool :=
  decide (retryInterval sell.attempts < now - sell.lastAttempt)

/-- Failure update of src/swap-service.ts lines 679-680 applied to the queue
entry with the processed mint: `sell.attempts++; sell.lastAttempt =
Date.now()` (the iterated object aliases the queue entry). -/
def bumpAttempt (now : ℤ) (m : ℕ) (s : PendingSell) : PendingSell :=
  if s.mint = m then { s with attempts := s.attempts + 1, lastAttempt := now } else s

/-- Iteration of `processPendingSells`, src/swap-service.ts lines 672-689:
the `for...of` loop walks the snapshot of the queue taken at entry (first
argument) while the queue itself (second argument) is reassigned inside the
loop.  For each due entry, a successful `triggerEmergencySell` removes every
entry with that mint (`filter`, line 677); a failing one increments the
entry's `attempts` and stamps `lastAttempt` (lines 679-680; entries whose
`attempts` reach `MAX_TOTAL_ATTEMPTS` are only logged as critical, line 682,
and stay queued).  `emergencyOk m` abstracts whether
`triggerEmergencySell(m)` succeeds during this pass.  The aliasing between
the snapshot and the live queue is faithful whenever the queue holds at most
one entry per mint (the theorems assume mint-distinctness). -/
def processPendingSellsGo (emergencyOk : ℕ → Bool) (now : ℤ) :
    List PendingSell → List PendingSell → List PendingSell
  | [], queue => queue
  | sell :: rest, queue =>
    if sellDue now sell then
      if emergencyOk sell.mint then
        processPendingSellsGo emergencyOk now rest
          (queue.filter (fun s => s.mint != sell.mint))
      else
        processPendingSellsGo emergencyOk now rest
          (queue.map (bumpAttempt now sell.mint))
    else
      processPendingSellsGo emergencyOk now rest queue

/-- One full `processPendingSells` pass over the queue
(src/swap-service.ts lines 672-689). -/
def processPendingSells (emergencyOk : ℕ → Bool) (now : ℤ)
    (queue : List PendingSell) : List PendingSell :=
  processPendingSellsGo emergencyOk now queue queue

/-- C5: across retry attempts of a failing sell, the slippage of attempt `k`
equals `min(BASE_SLIPPAGE_BPS + k * SLIPPAGE_INCREMENT, MAX_SLIPPAGE_BPS)`;
the schedule is non-decreasing in the retry count and never exceeds
`MAX_SLIPPAGE_BPS` (src/swap-service.ts lines 224-226). -/
theorem slippage_schedule (j k : ℕ) (hjk : j ≤ k) :
    currentSlippage true k =
      min (BASE_SLIPPAGE_BPS + k * SLIPPAGE_INCREMENT) MAX_SLIPPAGE_BPS ∧
    currentSlippage true j ≤ currentSlippage true k ∧
    currentSlippage true k ≤ MAX_SLIPPAGE_BPS := by
  refine ⟨rfl, ?_, ?_⟩
  · simp only [currentSlippage, if_true]
    have hmul : j * SLIPPAGE_INCREMENT ≤ k * SLIPPAGE_INCREMENT :=
      Nat.mul_le_mul_right _ hjk
    omega
  · simp only [currentSlippage, if_true]
    exact min_le_right _ _

/-- Witness for `slippage_schedule` at `j = 1`, `k = 2`. -/
theorem slippage_schedule_witness :
    currentSlippage true 2 =
      min (BASE_SLIPPAGE_BPS + 2 * SLIPPAGE_INCREMENT) MAX_SLIPPAGE_BPS ∧
    currentSlippage true 1 ≤ currentSlippage true 2 ∧
    currentSlippage true 2 ≤ MAX_SLIPPAGE_BPS :=
  slippage_schedule 1 2 (by norm_num)

/-- C7: on a buy (input mint is native SOL) the caller-supplied `amountIn`
is ignored: the executed amount is always the fixed `0.001` SOL
(`1/1000`), i.e. `1000000` lamports, independent of the argument
(src/swap-service.ts lines 211-216, src/unnamed/part_007 lines 1046-1049). -/
theorem buy_amount_fixed (amountIn amountIn' : ℚ) :
    attemptAmountIn solMint amountIn = 1 / 1000 ∧
    attemptAmountIn solMint amountIn = attemptAmountIn solMint amountIn' ∧
    amountInLamports solMint amountIn = 1000000 := by
  refine ⟨rfl, rfl, ?_⟩
  show Int.floor ((1 / 1000 : ℚ) * 1000000000) = 1000000
  norm_num

/-- C1: given counterparty balance `T0 → T1` (requested sell amount
`T0 - T1 ≤ T0`) and follower balance `F > 0`, the resize of
src/unnamed/part_007 lines 97-192 skips the trade (returns `null`) exactly
when the counterparty's percentage decrease is below `MIN_SELL_PERCENTAGE`,
and otherwise computes the follower sell amount
`⌊clamp (F * ((T0 - T1) / T0)) [F * MIN_SELL_PERCENTAGE / 100, F]⌋`
(the clamp is inactive on this range, so this is `⌊F * ((T0 - T1) / T0)⌋`). -/
theorem proportional_resize_correct (T0 T1 F : ℚ)
    (hT0 : 0 < T0) (hF : 0 < F) (hT1 : 0 ≤ T1) (hle : T1 ≤ T0) :
    ((T0 - T1) / T0 * 100 < MIN_SELL_PERCENTAGE →
      computeSellAmount T0 F (T0 - T1) = none) ∧
    (MIN_SELL_PERCENTAGE ≤ (T0 - T1) / T0 * 100 →
      computeSellAmount T0 F (T0 - T1) =
        some (Int.floor
          (max (F * MIN_SELL_PERCENTAGE / 100) (min (F * ((T0 - T1) / T0)) F)))) := by
  have g1 : ¬ T0 ≤ 0 := not_le.mpr hT0
  have g2 : ¬ F ≤ 0 := not_le.mpr hF
  have g3 : ¬ T0 < T0 - T1 := by linarith
  have hr1 : (T0 - T1) / T0 ≤ 1 := by
    rw [div_le_one hT0]; linarith
  constructor
  · intro hlt
    simp only [computeSellAmount, if_neg g1, if_neg g2, if_neg g3, if_pos hlt]
  · intro hge
    have hcap : ¬ MAX_SELL_PERCENTAGE < (T0 - T1) / T0 * 100 := by
      rw [not_lt, MAX_SELL_PERCENTAGE]
      nlinarith
    simp only [computeSellAmount, if_neg g1, if_neg g2, if_neg g3,
      if_neg (not_lt.mpr hge), if_neg hcap]
    congr 1
    have hlow : F * MIN_SELL_PERCENTAGE / 100 ≤ F * ((T0 - T1) / T0) := by
      rw [MIN_SELL_PERCENTAGE] at hge ⊢
      nlinarith
    have hhigh : F * ((T0 - T1) / T0) ≤ F := by
      nlinarith
    rw [min_eq_left hhigh, max_eq_right hlow]
    ring_nf

/-- Witness for `proportional_resize_correct`: counterparty sells 50 out of
100 (50%), follower holds 7, computed sell amount is `⌊3.5⌋ = 3`. -/
theorem proportional_resize_correct_witness :
    computeSellAmount 100 7 (100 - 50) =
      some (Int.floor
        (max ((7 : ℚ) * MIN_SELL_PERCENTAGE / 100)
          (min ((7 : ℚ) * (((100 : ℚ) - 50) / 100)) 7))) :=
  (proportional_resize_correct 100 50 7 (by norm_num) (by norm_num) (by norm_num)
    (by norm_num)).2 (by norm_num [MIN_SELL_PERCENTAGE])

/-- Helper: an all-failing run of the retry loop from retry counter
`retryCount` performs `MAX_RETRIES + 1 - retryCount` further attempts,
returns `null`, and schedules one emergency sell exactly when the swap is a
sell and the final failure is not the slippage pattern (a final slippage
failure leaves the loop through the `continue` path and the bottom
`return null`, bypassing the emergency-sell branch). -/
theorem execLoop_allFail (out : ℕ → AttemptOutcome) (isSell : Bool)
    (hfail : ∀ k, k ≤ MAX_RETRIES → isFailure (out k) = true) :
    ∀ fuel retryCount, retryCount ≤ MAX_RETRIES →
      MAX_RETRIES + 1 - retryCount < fuel →
      execLoop out isSell fuel retryCount =
        ⟨none, MAX_RETRIES + 1 - retryCount,
          if isSell && !(isSlippageFailure (out MAX_RETRIES)) then 1 else 0⟩ := by
  intro fuel
  induction fuel with
  | zero => intro r hr hf; omega
  | succ fuel ih =>
    intro r hr hf
    have hout := hfail r hr
    have hnotlt : ¬ MAX_RETRIES < r := not_lt.mpr hr
    have hexit : ∀ f, execLoop out isSell f (MAX_RETRIES + 1) = ⟨none, 0, 0⟩ := by
      intro f
      cases f with
      | zero => rfl
      | succ f => simp only [execLoop, if_pos (by omega : MAX_RETRIES < MAX_RETRIES + 1)]
    rcases hO : out r with sig | _ | _ | _ | _
    · rw [hO] at hout; simp [isFailure] at hout
    · rw [hO] at hout; simp [isFailure] at hout
    · by_cases hr3 : r = MAX_RETRIES
      · subst hr3
        simp only [execLoop, if_neg hnotlt, hO, hexit fuel]
        simp [isSlippageFailure, MAX_RETRIES]
      · have hstep : r + 1 ≤ MAX_RETRIES := by omega
        simp only [execLoop, if_neg hnotlt, hO, ih (r + 1) hstep (by omega)]
        rw [ExecResult.mk.injEq]
        exact ⟨rfl, by omega, rfl⟩
    · by_cases hr3 : r = MAX_RETRIES
      · subst hr3
        simp only [execLoop, if_neg hnotlt, hO,
          if_neg (by omega : ¬ MAX_RETRIES + 1 ≤ MAX_RETRIES)]
        simp [isSlippageFailure, MAX_RETRIES]
      · have hstep : r + 1 ≤ MAX_RETRIES := by omega
        simp only [execLoop, if_neg hnotlt, hO, if_pos hstep,
          ih (r + 1) hstep (by omega)]
        rw [ExecResult.mk.injEq]
        exact ⟨rfl, by omega, rfl⟩
    · by_cases hr3 : r = MAX_RETRIES
      · subst hr3
        simp only [execLoop, if_neg hnotlt, hO,
          if_neg (by omega : ¬ MAX_RETRIES + 1 ≤ MAX_RETRIES)]
        simp [isSlippageFailure, MAX_RETRIES]
      · have hstep : r + 1 ≤ MAX_RETRIES := by omega
        simp only [execLoop, if_neg hnotlt, hO, if_pos hstep,
          ih (r + 1) hstep (by omega)]
        rw [ExecResult.mk.injEq]
        exact ⟨rfl, by omega, rfl⟩

/-- C2 counterexample: a sell for which every attempt fails with the
slippage pattern returns `null` after `MAX_RETRIES + 1 = 4` attempts but
schedules zero Emergency Sell calls, refuting the claim that a failed sell
always schedules exactly one (`continue` at src/swap-service.ts line 483
bypasses the emergency branch and the loop exits through line 508). -/
theorem retry_ceiling_counterexample :
    executeSwap true true "TokenMint" solMint 1 (some "Wallet") true
      (fun _ => AttemptOutcome.failSlippage) =
      ⟨none, MAX_RETRIES + 1, 0⟩ := by rfl

/-- C2 (amended): when the circuit breaker passes and every attempt fails,
`executeSwap` returns `null` after exactly `MAX_RETRIES + 1` attempts; one
Emergency Sell is scheduled exactly when the swap is a sell and the final
failure is not the slippage pattern; a buy never schedules one
(src/swap-service.ts lines 117-508). -/
theorem retry_ceiling_amended (enableBuy enableSell : Bool)
    (tokenInMint tokenOutMint : String) (amountIn : ℚ)
    (targetWalletAddress : Option String) (isSellingTransaction : Bool)
    (out : ℕ → AttemptOutcome)
    (hbuy : ((tokenInMint == solMint) && !enableBuy) = false)
    (hsell : ((tokenOutMint == solMint) && !enableSell) = false)
    (hfail : ∀ k, k ≤ MAX_RETRIES → isFailure (out k) = true) :
    executeSwap enableBuy enableSell tokenInMint tokenOutMint amountIn
      targetWalletAddress isSellingTransaction out =
      ⟨none, MAX_RETRIES + 1,
        if (tokenOutMint == solMint) && !(isSlippageFailure (out MAX_RETRIES))
        then 1 else 0⟩ := by
  unfold executeSwap
  simp only [hbuy, hsell, Bool.or_self, Bool.false_eq_true, if_false]
  have := execLoop_allFail out (tokenOutMint == solMint) hfail
    (MAX_RETRIES + 2) 0 (by omega) (by omega)
  simpa using this

/-- Witness for `retry_ceiling_amended`: a sell whose four attempts all fail
with a non-slippage error returns `null` with exactly one Emergency Sell. -/
theorem retry_ceiling_amended_witness :
    executeSwap true true "TokenMint" solMint 1 (some "Wallet") true
      (fun _ => AttemptOutcome.failOther) =
      ⟨none, MAX_RETRIES + 1, 1⟩ :=
  retry_ceiling_amended true true "TokenMint" solMint 1 (some "Wallet") true
    (fun _ => AttemptOutcome.failOther) (by rfl) (by rfl) (fun k _ => rfl)

/-- C3: evidence for the code bug.  A buy whose quote reports an extreme
price impact on every attempt does NOT abort immediately: the
`ExtremePriceImpactError` rethrown at src/swap-service.ts line 251 lands in
the generic `catch` at line 450, so the loop performs all
`MAX_RETRIES + 1 = 4` attempts before returning `null` — contradicting the
claim and the code's own comments at lines 237 and 246 (`throw immediately
without retries`).  No Emergency Sell is scheduled for the buy, as claimed. -/
theorem price_impact_retry_behavior :
    extremePriceImpact 150 = true ∧
    executeSwap true true solMint "TokenMint" 1 none false
      (fun _ => AttemptOutcome.failPriceImpact) =
      ⟨none, MAX_RETRIES + 1, 0⟩ := by
  exact ⟨by decide, by rfl⟩

/-- C4: the buy/sell circuit breaker (src/swap-service.ts lines 105-112)
short-circuits: for every combination of inputs, a disabled buy or disabled
sell returns `null` with zero attempts — the guard runs before the loop and
before any network call, so no network call is made and the retry counter
never advances. -/
theorem circuit_breaker_short_circuit (enableBuy enableSell : Bool)
    (tokenInMint tokenOutMint : String) (amountIn : ℚ)
    (targetWalletAddress : Option String) (isSellingTransaction : Bool)
    (out : ℕ → AttemptOutcome)
    (hdisabled : (tokenInMint = solMint ∧ enableBuy = false) ∨
      (tokenOutMint = solMint ∧ enableSell = false)) :
    executeSwap enableBuy enableSell tokenInMint tokenOutMint amountIn
      targetWalletAddress isSellingTransaction out = ⟨none, 0, 0⟩ := by
  unfold executeSwap
  rcases hdisabled with ⟨h1, h2⟩ | ⟨h1, h2⟩ <;> subst h1 <;> subst h2 <;> simp

/-- Witness for `circuit_breaker_short_circuit`: a buy with buying disabled
(the source default, src/swap-service.ts line 16) returns `null` untouched. -/
theorem circuit_breaker_short_circuit_witness :
    executeSwap false true solMint "TokenMint" 1 none false
      (fun _ => AttemptOutcome.success 0) = ⟨none, 0, 0⟩ :=
  circuit_breaker_short_circuit false true solMint "TokenMint" 1 none false
    (fun _ => AttemptOutcome.success 0) (Or.inl ⟨rfl, rfl⟩)

/-- C9: for every payload, `parseTx` attempts versioned deserialization
first; it returns the versioned transaction whenever that succeeds, falls
back to legacy decoding exactly when it fails, and a payload that decodes as
versioned is never decoded as legacy (src/swap-service.ts lines 320-327). -/
theorem parseTx_versioned_first {B V L : Type} (deserializeVersioned : B → Option V)
    (legacyFrom : B → L) (buf : B) :
    (∀ v, deserializeVersioned buf = some v →
      parseTx deserializeVersioned legacyFrom buf = ParsedTx.versionedTx v) ∧
    (deserializeVersioned buf = none →
      parseTx deserializeVersioned legacyFrom buf = ParsedTx.legacyTx (legacyFrom buf)) ∧
    (∀ v t, deserializeVersioned buf = some v →
      parseTx deserializeVersioned legacyFrom buf ≠ ParsedTx.legacyTx t) := by
  unfold parseTx
  cases h : deserializeVersioned buf with
  | none => simp
  | some v => simp

/-- Witness for `parseTx_versioned_first` on a concrete decoder pair. -/
theorem parseTx_versioned_first_witness :
    parseTx (fun b : ℕ => if b = 0 then some 7 else none) (fun b => b + 1) 0 =
      ParsedTx.versionedTx 7 ∧
    parseTx (fun b : ℕ => if b = 0 then some 7 else none) (fun b => b + 1) 1 =
      ParsedTx.legacyTx 2 :=
  ⟨(parseTx_versioned_first (fun b : ℕ => if b = 0 then some 7 else none)
      (fun b => b + 1) 0).1 7 (by simp),
   (parseTx_versioned_first (fun b : ℕ => if b = 0 then some 7 else none)
      (fun b => b + 1) 1).2.1 (by simp)⟩

/-- C6 counterexample: counterparty balance is exactly 0 with stored
`targetAmount = 3 > 0`, but the follower's own on-chain balance is 0, so
`handleFullSell` removes the holding immediately (src/unnamed/part_008 lines
592-597) and no full-sell is ever emitted — refuting the claim that a
full-sell is emitted and that the entry is removed only after a confirmed
execution. -/
theorem full_sell_counterexample :
    checkBalanceStep 0 0 (fun _ => some 99) (fun _ => true) 0
      [⟨1, 5, 3, 0⟩] ⟨1, 5, 3, 0⟩ = ([], none) := by decide

/-- C6 (amended): when the counterparty balance is exactly 0, the stored
`targetAmount` is positive, and the follower's own balance is positive, the
poll-mode detector emits a full-sell sized at the holding's stored amount;
holdings for other mints are retained, and the holding itself is removed
exactly when `executeSwap` returns a signature that
`verifyTransactionSuccess` confirms.  (When the follower's balance is not
positive, the entry is instead removed immediately without any sell — the
carve-out forced by the counterexample.) -/
theorem full_sell_amended (targetBalance ourBalance : ℚ)
    (execSell : ℚ → Option ℕ) (verifySuccess : ℕ → Bool) (now : ℤ)
    (holdings : List TokenHolding) (holding : TokenHolding)
    (htb : targetBalance = 0) (hta : 0 < holding.targetAmount)
    (hob : 0 < ourBalance) :
    (checkBalanceStep targetBalance ourBalance execSell verifySuccess now
      holdings holding).2 = some holding.amount ∧
    (∀ h ∈ holdings, h.mint ≠ holding.mint →
      h ∈ (checkBalanceStep targetBalance ourBalance execSell verifySuccess now
        holdings holding).1) ∧
    (holding ∈ holdings →
      (holding ∉ (checkBalanceStep targetBalance ourBalance execSell verifySuccess
          now holdings holding).1 ↔
        ∃ txId, execSell holding.amount = some txId ∧ verifySuccess txId = true)) := by
  subst htb
  have hcond : (0 : ℚ) < holding.targetAmount := hta
  unfold checkBalanceStep
  rw [if_pos hcond, if_pos ⟨rfl, hta⟩]
  unfold handleFullSell
  rw [if_neg (not_le.mpr hob)]
  cases hx : execSell holding.amount with
  | none =>
    refine ⟨rfl, fun h hh _ => hh, fun hmem => ?_⟩
    simp [hmem]
  | some txId =>
    dsimp only
    cases hv : verifySuccess txId with
    | false =>
      refine ⟨rfl, fun h hh _ => hh, fun hmem => ?_⟩
      simp [hmem, hv]
    | true =>
      rw [if_pos rfl]
      refine ⟨rfl, fun h hh hne => ?_, fun hmem => ?_⟩
      · simp only [List.mem_filter]
        exact ⟨hh, by simpa [bne_iff_ne] using hne⟩
      · constructor
        · intro _; exact ⟨txId, rfl, hv⟩
        · intro _ hcontra
          rcases List.mem_filter.mp hcontra with ⟨_, hbad⟩
          simp [bne_iff_ne] at hbad

/-- Witness for `full_sell_amended`: follower balance 2, stored amount 5;
the emitted full-sell is exactly 5. -/
theorem full_sell_amended_witness :
    (checkBalanceStep 0 2 (fun _ => some 5) (fun _ => true) 0
      [⟨1, 5, 3, 0⟩] ⟨1, 5, 3, 0⟩).2 = some (5 : ℚ) :=
  (full_sell_amended 0 2 (fun _ => some 5) (fun _ => true) 0
    [⟨1, 5, 3, 0⟩] ⟨1, 5, 3, 0⟩ rfl (by norm_num) (by norm_num)).1

/-- C10: `addHolding(mint, rawAmount, decimals)` followed by reading the
stored holding returns exactly `rawAmount / 10 ^ decimals` (proved for every
`decimals`, in particular 0, 6 and 9 — division on `ℚ` is exact), and the
mutation is persisted immediately: after the call the persisted state equals
the in-memory state (src/unnamed/part_008 lines 446-462). -/
theorem addHolding_round_trip (decimals : ℕ) (now : ℤ) (store : HoldingsStore)
    (mint : ℕ) (amount : ℚ) :
    (addHolding decimals now store mint amount).holdings.getLast? =
      some ⟨mint, amount / (10 : ℚ) ^ decimals, 0, now⟩ ∧
    (addHolding decimals now store mint amount).persisted =
      (addHolding decimals now store mint amount).holdings := by
  constructor
  · simp [addHolding]
  · rfl

/-- Helper: `bumpAttempt` never changes the mint. -/
theorem bumpAttempt_mint (now : ℤ) (m : ℕ) (s : PendingSell) :
    (bumpAttempt now m s).mint = s.mint := by
  unfold bumpAttempt
  split <;> rfl

/-- Helper: every entry surviving a pass descends from a queue entry with
the same mint whose `attempts` counter grew by at most one, provided the
iterated snapshot has pairwise-distinct mints. -/
theorem processPendingSellsGo_attempts (emergencyOk : ℕ → Bool) (now : ℤ) :
    ∀ (l q : List PendingSell), (l.map PendingSell.mint).Nodup →
      ∀ e ∈ processPendingSellsGo emergencyOk now l q,
        ∃ e0 ∈ q, e0.mint = e.mint ∧
          (e.attempts = e0.attempts ∨
            (e.attempts = e0.attempts + 1 ∧ e.mint ∈ l.map PendingSell.mint)) := by
  intro l
  induction l with
  | nil => intro q hnd e he; exact ⟨e, he, rfl, Or.inl rfl⟩
  | cons sell rest ih =>
    intro q hnd e he
    rw [List.map_cons, List.nodup_cons] at hnd
    obtain ⟨hs, hndr⟩ := hnd
    rw [processPendingSellsGo] at he
    by_cases hdue : sellDue now sell = true
    · rw [if_pos hdue] at he
      by_cases hok : emergencyOk sell.mint = true
      · rw [if_pos hok] at he
        obtain ⟨e0, he0, hm, hrel⟩ :=
          ih (q.filter fun s => s.mint != sell.mint) hndr e he
        refine ⟨e0, (List.mem_filter.mp he0).1, hm, ?_⟩
        rcases hrel with h | ⟨h, hmem⟩
        · exact Or.inl h
        · exact Or.inr ⟨h, by simp only [List.map_cons, List.mem_cons]; exact Or.inr hmem⟩
      · rw [if_neg hok] at he
        obtain ⟨e1, he1, hm1, hrel1⟩ :=
          ih (q.map (bumpAttempt now sell.mint)) hndr e he
        obtain ⟨e0, he0, he01⟩ := List.mem_map.mp he1
        by_cases hm : e0.mint = sell.mint
        · have he1def : e1 = { e0 with attempts := e0.attempts + 1, lastAttempt := now } := by
            rw [← he01]
            unfold bumpAttempt
            rw [if_pos hm]
          have he1mint : e1.mint = e0.mint := by rw [he1def]
          have he1att : e1.attempts = e0.attempts + 1 := by rw [he1def]
          rcases hrel1 with ha | ⟨ha, hmem⟩
          · refine ⟨e0, he0, by rw [← hm1, he1mint], Or.inr ⟨by omega, ?_⟩⟩
            simp only [List.map_cons, List.mem_cons]
            exact Or.inl (by rw [← hm1, he1mint, hm])
          · exfalso
            apply hs
            have : e.mint = sell.mint := by rw [← hm1, he1mint, hm]
            rw [← this]
            exact hmem
        · have he1def : e1 = e0 := by
            rw [← he01]
            unfold bumpAttempt
            rw [if_neg hm]
          rw [he1def] at hm1 hrel1
          refine ⟨e0, he0, hm1, ?_⟩
          rcases hrel1 with h | ⟨h, hmem⟩
          · exact Or.inl h
          · exact Or.inr ⟨h, by simp only [List.map_cons, List.mem_cons]; exact Or.inr hmem⟩
    · rw [if_neg hdue] at he
      obtain ⟨e0, he0, hm, hrel⟩ := ih q hndr e he
      refine ⟨e0, he0, hm, ?_⟩
      rcases hrel with h | ⟨h, hmem⟩
      · exact Or.inl h
      · exact Or.inr ⟨h, by simp only [List.map_cons, List.mem_cons]; exact Or.inr hmem⟩

/-- Helper: a queue entry whose mint is gone after the pass must have had a
successful emergency sell for its mint. -/
theorem processPendingSellsGo_removal (emergencyOk : ℕ → Bool) (now : ℤ) :
    ∀ (l q : List PendingSell) (e0 : PendingSell), e0 ∈ q →
      (∀ e ∈ processPendingSellsGo emergencyOk now l q, e.mint ≠ e0.mint) →
      emergencyOk e0.mint = true := by
  intro l
  induction l with
  | nil => intro q e0 he0 hall; exact absurd rfl (hall e0 he0)
  | cons sell rest ih =>
    intro q e0 he0 hall
    rw [processPendingSellsGo] at hall
    by_cases hdue : sellDue now sell = true
    · rw [if_pos hdue] at hall
      by_cases hok : emergencyOk sell.mint = true
      · by_cases hm : e0.mint = sell.mint
        · rw [hm]; exact hok
        · rw [if_pos hok] at hall
          refine ih (q.filter fun s => s.mint != sell.mint) e0 ?_ hall
          exact List.mem_filter.mpr ⟨he0, by simpa [bne_iff_ne] using hm⟩
      · rw [if_neg hok] at hall
        have hres : emergencyOk (bumpAttempt now sell.mint e0).mint = true := by
          refine ih (q.map (bumpAttempt now sell.mint))
            (bumpAttempt now sell.mint e0) (List.mem_map_of_mem _ he0) ?_
          intro e he
          rw [bumpAttempt_mint]
          exact hall e he
        rwa [bumpAttempt_mint] at hres
    · rw [if_neg hdue] at hall
      exact ih q e0 he0 hall

/-- C8 counterexample: an entry that already sits at
`MAX_TOTAL_ATTEMPTS = 10` attempts is still due and still retried; a failing
pass pushes its counter to 11, violating the claimed invariant
`attempts <= MAX_TOTAL_ATTEMPTS` (src/swap-service.ts lines 672-689 only log
entries at the cap, they never stop retrying them). -/
theorem pending_sell_cap_counterexample :
    processPendingSells (fun _ => false) 100000
      [⟨1, 2, MAX_TOTAL_ATTEMPTS, 0, 0⟩] =
      [⟨1, 2, MAX_TOTAL_ATTEMPTS + 1, 100000, 0⟩] ∧
    ¬ (MAX_TOTAL_ATTEMPTS + 1 ≤ MAX_TOTAL_ATTEMPTS) := by decide

/-- C8 (amended): over a `processPendingSells` pass on a queue with
pairwise-distinct mints, each surviving entry descends from an input entry
with the same mint whose `attempts` counter grew by at most one (entries at
or beyond `MAX_TOTAL_ATTEMPTS` are logged as critical but retained and still
retried, so the counter can exceed the cap); and an entry's mint leaves the
queue only through a successful emergency sell. -/
theorem pending_sell_pass_amended (emergencyOk : ℕ → Bool) (now : ℤ)
    (queue : List PendingSell) (hnodup : (queue.map PendingSell.mint).Nodup) :
    (∀ e ∈ processPendingSells emergencyOk now queue,
      ∃ e0 ∈ queue, e0.mint = e.mint ∧ e.attempts ≤ e0.attempts + 1) ∧
    (∀ e0 ∈ queue,
      (∀ e ∈ processPendingSells emergencyOk now queue, e.mint ≠ e0.mint) →
      emergencyOk e0.mint = true) := by
  constructor
  · intro e he
    obtain ⟨e0, he0, hm, hrel⟩ :=
      processPendingSellsGo_attempts emergencyOk now queue queue hnodup e he
    refine ⟨e0, he0, hm, ?_⟩
    rcases hrel with h | ⟨h, _⟩ <;> omega
  · intro e0 he0 hall
    exact processPendingSellsGo_removal emergencyOk now queue queue e0 he0 hall

/-- Witness for `pending_sell_pass_amended` on a one-entry queue whose
emergency sell fails: the surviving entry `⟨1, 2, 1, 5000, 0⟩` descends from
the input entry with one extra attempt. -/
theorem pending_sell_pass_amended_witness :
    ∃ e0 ∈ [(⟨1, 2, 0, 0, 0⟩ : PendingSell)],
      e0.mint = (1 : ℕ) ∧ (1 : ℕ) ≤ e0.attempts + 1 :=
  (pending_sell_pass_amended (fun _ => false) 5000 [⟨1, 2, 0, 0, 0⟩] (by simp)).1
    ⟨1, 2, 1, 5000, 0⟩ (by decide)

end SolanaTradingBot
